import Mathlib

/-!
Shallow embedding of the face-replacement compositing pipeline of
`app/face_replacer.py` and `app/face_detector.py`.

Modelling conventions:
* An image (a numpy `H×W×3` uint8 array) is a structure carrying its
  dimensions and a total pixel function `ℕ → ℕ → Fin 3 → ℚ`; pixel values of a
  well-formed uint8 image are natural numbers `≤ 255` (predicate
  `Image.IsUInt8`).
* External library primitives (the `face_recognition` detection oracle,
  `cv2.resize`, `cv2.seamlessClone`, `cv2.ellipse`, `cv2.GaussianBlur`,
  `cv2.cvtColor` RGB↔LAB, and the square root inside `numpy.std`) are opaque
  parameters collected in an `Env` record; `cv2.seamlessClone` returns an
  `Option`, with `none` standing for a raised `cv2.error` (the code catches
  exactly that exception).
* Python integer floor division `//` is `Int.fdiv`; `float(...)`/`int(...)`
  truncation toward zero of nonnegative quantities is `Int.floor`;
  `ndarray.astype(np.uint8)` is truncation followed by reduction mod 256
  (`u8cast`); `cv2.addWeighted`'s `saturate_cast<uchar>` is rounding followed
  by clamping into `[0, 255]` (`sat8`); `np.clip(·, 0, 255)` is `clip255`.
* numpy basic slicing `a[r0:r1, c0:c1]` is `npSlice`, with the usual
  negative-index wrap-around and clamping semantics (`npIdx`).
-/

namespace FaceGifReplacer

/-- A face bounding box `(top, right, bottom, left)`, as returned by
`face_recognition.face_locations`. -/
structure Box where
  top : ℤ
  right : ℤ
  bottom : ℤ
  left : ℤ
deriving DecidableEq, Repr

/-- An `H×W×3` image: dimensions plus a total pixel function. -/
@[ext]
structure Image where
  height : ℕ
  width : ℕ
  data : ℕ → ℕ → Fin 3 → ℚ

/-- A single-channel `H×W` weight image (blend mask). -/
@[ext]
structure Mask where
  height : ℕ
  width : ℕ
  data : ℕ → ℕ → ℚ

/-- A well-formed uint8 image: every sample is a natural number `≤ 255`. -/
def Image.IsUInt8 (img : Image) : Prop :=
  ∀ r c k, ∃ n : ℕ, img.data r c k = (n : ℚ) ∧ n ≤ 255

/-- Facial landmarks: a mapping from feature name to an ordered point list
(the shape of the dict returned by `face_recognition.face_landmarks`). -/
def Landmarks : Type := List (String × List (ℤ × ℤ))

/-- `ndarray.astype(np.uint8)` applied to a float sample: truncate toward
zero, then reduce mod 256 (C cast semantics; all values cast in this code are
nonnegative, where truncation agrees with `Int.floor`). -/
def u8cast (x : ℚ) : ℚ := ((⌊x⌋.toNat % 256 : ℕ) : ℚ)

/-- `cv2.addWeighted`'s per-sample `saturate_cast<uchar>`: round to nearest,
then clamp into `[0, 255]`.  (OpenCV rounds half to even; the two rounding
rules agree away from half-integers, which is the only regime the theorems
below touch.) -/
def sat8 (x : ℚ) : ℚ := ((min 255 (max 0 (round x)) : ℤ) : ℚ)

/-- `np.clip(x, 0, 255)` on one sample. -/
def clip255 (x : ℚ) : ℚ := min 255 (max 0 x)

/-- numpy slice-index resolution against an axis of length `n`: a negative
index is offset by `n`, then the result is clamped into `[0, n]`. -/
def npIdx (i : ℤ) (n : ℕ) : ℕ := (min (if i < 0 then i + n else i) (n : ℤ)).toNat

/-- numpy basic 2-D slicing `img[r0:r1, c0:c1]` (all channels kept). -/
def npSlice (img : Image) (r0 r1 c0 c1 : ℤ) : Image :=
  let a := npIdx r0 img.height
  let b := npIdx r1 img.height
  let c := npIdx c0 img.width
  let d := npIdx c1 img.width
  ⟨b - a, d - c, fun r cc k => img.data (a + r) (c + cc) k⟩

/-- External primitives used by the pipeline, modelled as opaque oracles. -/
structure Env where
  /-- `face_recognition.face_locations(image, model=...)` on an RGB image. -/
  faceLocations : Image → List Box
  /-- `face_recognition.face_landmarks(image, boxes)`. -/
  faceLandmarks : Image → List Box → List Landmarks
  /-- `cv2.resize(src, (width, height), interpolation=cv2.INTER_LANCZOS4)`. -/
  resize : Image → ℤ → ℤ → Image
  /-- `cv2.seamlessClone(src, dst, mask, center, cv2.NORMAL_CLONE)`;
  `none` models a raised `cv2.error`. -/
  seamlessClone : Image → Image → Mask → ℤ × ℤ → Option Image
  /-- `cv2.ellipse(mask, center, axes, 0, 0, 360, 255, -1)` (filled). -/
  ellipse : Mask → ℤ × ℤ → ℤ × ℤ → Mask
  /-- `cv2.GaussianBlur(mask, (21, 21), 11)` (kernel size, sigma). -/
  gaussianBlur : Mask → ℕ → ℚ → Mask
  /-- `cv2.cvtColor(·, cv2.COLOR_RGB2LAB)` after `astype(np.float32)`. -/
  rgb2lab : Image → Image
  /-- `cv2.cvtColor(·, cv2.COLOR_LAB2RGB)`. -/
  lab2rgb : Image → Image
  /-- the square root taken inside `numpy.ndarray.std`. -/
  sqrtQ : ℚ → ℚ

/-- Raw input to `FaceDetector.detect_faces`: a 2-D grayscale, `H×W×3` RGB,
or `H×W×4` RGBA numpy array. -/
inductive RawImage where
  | gray (h w : ℕ) (data : ℕ → ℕ → ℚ)
  | rgb (img : Image)
  | rgba (h w : ℕ) (data : ℕ → ℕ → Fin 4 → ℚ)

/-- `FaceDetector.detect_faces`: normalizes 2-D grayscale input with
`cv2.cvtColor(·, COLOR_GRAY2RGB)` (channel replication) and 4-channel input
with `cv2.cvtColor(·, COLOR_RGBA2RGB)` (alpha dropped), then invokes the
detection oracle. -/
def detect_faces (env : Env) (image : RawImage) : List Box :=
  match image with
  | .gray h w d => env.faceLocations ⟨h, w, fun r c _ => d r c⟩
  | .rgba h w d => env.faceLocations ⟨h, w, fun r c k => d r c k.castSucc⟩
  | .rgb img => env.faceLocations img

/-- `FaceDetector.get_face_landmarks`. -/
def get_face_landmarks (env : Env) (image : Image) (faceLocation : Box) :
    Option Landmarks :=
  (env.faceLandmarks image [faceLocation]).head?

/-- `FaceDetector.extract_face`: pad the box by `int(dim * padding)` per side,
clamp to image bounds, and slice. -/
def extract_face (image : Image) (faceLocation : Box)
    (padding : ℚ) : Image × Box :=
  let height : ℤ := image.height
  let width : ℤ := image.width
  let faceHeight := faceLocation.bottom - faceLocation.top
  let faceWidth := faceLocation.right - faceLocation.left
  let padH : ℤ := ⌊(faceHeight : ℚ) * padding⌋
  let padW : ℤ := ⌊(faceWidth : ℚ) * padding⌋
  let newTop := max 0 (faceLocation.top - padH)
  let newBottom := min height (faceLocation.bottom + padH)
  let newLeft := max 0 (faceLocation.left - padW)
  let newRight := min width (faceLocation.right + padW)
  (npSlice image newTop newBottom newLeft newRight,
   ⟨newTop, newRight, newBottom, newLeft⟩)

/-- All-zero mask (`np.zeros((height, width), dtype=np.uint8)`). -/
def zerosMask (h w : ℕ) : Mask := ⟨h, w, fun _ _ => 0⟩

/-- `create_face_mask` (in `face_detector.py`): filled ellipse centered in the
region with semi-axes `int(width * 0.45)`, `int(height * 0.48)`, feathered by
a 21×21 Gaussian blur with sigma 11. -/
def create_face_mask (env : Env) (faceImage : Image) : Mask :=
  let height := faceImage.height
  let width := faceImage.width
  let mask := zerosMask height width
  let center : ℤ × ℤ := (width / 2, height / 2)
  let axes : ℤ × ℤ := (⌊(width : ℚ) * (45 / 100)⌋, ⌊(height : ℚ) * (48 / 100)⌋)
  env.gaussianBlur (env.ellipse mask center axes) 21 11

/-- The key of Python `max(faces, key=lambda f: (f[2] - f[0]) * (f[1] - f[3]))`
in `FaceReplacer.set_source_face`: `(bottom - top) * (right - left)`. -/
def Box.pyArea (b : Box) : ℤ := (b.bottom - b.top) * (b.right - b.left)

/-- Python `max(x :: xs, key=key)`: fold that replaces the current best only
on a strictly larger key, hence keeping the first-encountered maximum. -/
def pyMaxBy (key : Box → ℤ) (x : Box) (xs : List Box) : Box :=
  xs.foldl (fun b a => if key b < key a then a else b) x

/-- The face selected by `set_source_face` from a detection result
(`None` when the list is empty, where the code returns early). -/
def largestFace (faces : List Box) : Option Box :=
  match faces with
  | [] => none
  | x :: xs => some (pyMaxBy Box.pyArea x xs)

/-- State owned by a basic `FaceReplacer`: the cached source face and its
landmarks. -/
structure SourceState where
  sourceFace : Option Image
  sourceLandmarks : Option Landmarks

/-- `FaceReplacer.set_source_face`: detect, keep the largest face, extract it
with padding 0.4, cache it together with its landmarks; returns the updated
state and the success flag (`False` leaves the state untouched). -/
def set_source_face (env : Env) (st : SourceState) (image : Image) :
    SourceState × Bool :=
  match detect_faces env (.rgb image) with
  | [] => (st, false)
  | x :: xs =>
    let largest := pyMaxBy Box.pyArea x xs
    ({ sourceFace := some (extract_face image largest (2 / 5)).1,
       sourceLandmarks := get_face_landmarks env image largest }, true)

/-- Row where the `_simple_blend` overlap starts: `start_y = max(0, top)`. -/
def blendStartY (top : ℤ) : ℤ := max 0 top

/-- Row past the `_simple_blend` overlap: `end_y = min(top + h, frame_h)`. -/
def blendEndY (frame face : Image) (top : ℤ) : ℤ :=
  min (top + face.height) frame.height

/-- Column where the `_simple_blend` overlap starts: `start_x = max(0, left)`. -/
def blendStartX (left : ℤ) : ℤ := max 0 left

/-- Column past the `_simple_blend` overlap: `end_x = min(left + w, frame_w)`. -/
def blendEndX (frame face : Image) (left : ℤ) : ℤ :=
  min (left + face.width) frame.width

/-- `FaceReplacer._simple_blend`: alpha-blend the face patch over the frame on
the overlap rectangle between the patch (placed at `(top, left)`) and the
frame; if the overlap is empty, return the untouched copy of the frame.
Per overlap pixel the weight is `mask/255 * blend_strength` and the result is
`face * w + frame * (1 - w)` cast back to uint8. -/
def simpleBlend (frame face : Image) (mask : Mask) (top left : ℤ)
    (blendStrength : ℚ) : Image :=
  if blendEndY frame face top ≤ blendStartY top ∨
     blendEndX frame face left ≤ blendStartX left then
    frame
  else
    { frame with
      data := fun r c k =>
        if blendStartY top ≤ (r : ℤ) ∧ (r : ℤ) < blendEndY frame face top ∧
           blendStartX left ≤ (c : ℤ) ∧ (c : ℤ) < blendEndX frame face left then
          let fr := ((r : ℤ) - top).toNat
          let fc := ((c : ℤ) - left).toNat
          let w := mask.data fr fc / 255 * blendStrength
          u8cast (face.data fr fc k * w + frame.data r c k * (1 - w))
        else frame.data r c k }

/-- `cv2.addWeighted(a, alpha, b, beta, gamma)` (per sample:
`saturate_cast<uchar>(a*alpha + b*beta + gamma)`). -/
def cvAddWeighted (a : Image) (alpha : ℚ) (b : Image) (beta gamma : ℚ) :
    Image :=
  ⟨a.height, a.width,
   fun r c k => sat8 (a.data r c k * alpha + b.data r c k * beta + gamma)⟩

/-- The bounds precondition of `_replace_single_face` exactly as coded
(`face_replacer.py` lines 104–105): the box center
`(left + w//2, top + h//2)`, offset by half the box's width/height in each
direction, leaves the frame, which forces the alpha-blend fallback. -/
def centerOutOfBounds (frame : Image) (loc : Box) : Prop :=
  let faceHeight := loc.bottom - loc.top
  let faceWidth := loc.right - loc.left
  let center : ℤ × ℤ :=
    (loc.left + Int.fdiv faceWidth 2, loc.top + Int.fdiv faceHeight 2)
  center.1 < Int.fdiv faceWidth 2 ∨
    center.1 ≥ (frame.width : ℤ) - Int.fdiv faceWidth 2 ∨
    center.2 < Int.fdiv faceHeight 2 ∨
    center.2 ≥ (frame.height : ℤ) - Int.fdiv faceHeight 2

instance (frame : Image) (loc : Box) :
    Decidable (centerOutOfBounds frame loc) := by
  unfold centerOutOfBounds; infer_instance

/-- The source face resized to the box dimensions (the `cv2.resize` step of
`_replace_single_face`). -/
def fittedSource (env : Env) (src : Image) (loc : Box) : Image :=
  env.resize src (loc.right - loc.left) (loc.bottom - loc.top)

/-- The mask `_replace_single_face` builds for the fitted source. -/
def fittedMask (env : Env) (src : Image) (loc : Box) : Mask :=
  create_face_mask env (fittedSource env src loc)

/-- `FaceReplacer._replace_single_face`: resize the source to the box, build
the mask, and seamless-clone at the box center — unless the center offset by
half the box dimensions leaves the frame (`centerOutOfBounds`), or the clone
raises, in which case fall back to `_simple_blend`.  With
`blend_strength < 1` the clone result is linearly interpolated with the
original frame. -/
def replaceSingleFace (env : Env) (sourceFace : Option Image) (frame : Image)
    (faceLocation : Box) (blendStrength : ℚ) : Image :=
  match sourceFace with
  | none => frame
  | some src =>
    let faceHeight := faceLocation.bottom - faceLocation.top
    let faceWidth := faceLocation.right - faceLocation.left
    let resizedSource := env.resize src faceWidth faceHeight
    let mask := create_face_mask env resizedSource
    let center : ℤ × ℤ :=
      (faceLocation.left + Int.fdiv faceWidth 2,
       faceLocation.top + Int.fdiv faceHeight 2)
    if centerOutOfBounds frame faceLocation then
      simpleBlend frame resizedSource mask faceLocation.top faceLocation.left
        blendStrength
    else
      match env.seamlessClone resizedSource frame mask center with
      | some result =>
        if blendStrength < 1 then
          cvAddWeighted frame (1 - blendStrength) result blendStrength 0
        else result
      | none =>
        simpleBlend frame resizedSource mask faceLocation.top faceLocation.left
          blendStrength

/-- `FaceReplacer.replace_faces_in_frame`: with no cached source face the
frame is returned unchanged; otherwise every detected face is replaced in
turn on a copy of the frame. -/
def replaceFacesInFrame (env : Env) (sourceFace : Option Image)
    (frame : Image) (blendStrength : ℚ) : Image :=
  match sourceFace with
  | none => frame
  | some _ =>
    (detect_faces env (.rgb frame)).foldl
      (fun result loc => replaceSingleFace env sourceFace result loc
        blendStrength)
      frame

/-- Sum of one LAB channel over the whole array (used by `mean`/`std`). -/
def chanSum (img : Image) (k : Fin 3) : ℚ :=
  ∑ r in Finset.range img.height, ∑ c in Finset.range img.width, img.data r c k

/-- `ndarray[:, :, k].mean()`. -/
def chanMean (img : Image) (k : Fin 3) : ℚ :=
  chanSum img k / ((img.height : ℚ) * img.width)

/-- The variance under the square root of `ndarray[:, :, k].std()`. -/
def chanVar (img : Image) (k : Fin 3) : ℚ :=
  (∑ r in Finset.range img.height, ∑ c in Finset.range img.width,
      (img.data r c k - chanMean img k) ^ 2) /
    ((img.height : ℚ) * img.width)

/-- `ndarray[:, :, k].std()`: the (oracle) square root of the variance. -/
def chanStd (env : Env) (img : Image) (k : Fin 3) : ℚ :=
  env.sqrtQ (chanVar img k)

/-- The per-channel loop of `AdvancedFaceReplacer._match_histograms` on the
LAB arrays, followed by `np.clip(·, 0, 255).astype(np.uint8)`: a channel with
positive standard deviation is rescaled by
`(value - source_mean) * (target_std / source_std) + target_mean`; a channel
with zero standard deviation is passed through; everything is then clipped
into `[0, 255]` and cast back to uint8. -/
def matchedLab (env : Env) (sourceLab targetLab : Image) : Image :=
  { sourceLab with
    data := fun r c k =>
      let sMean := chanMean sourceLab k
      let sStd := chanStd env sourceLab k
      let tMean := chanMean targetLab k
      let tStd := chanStd env targetLab k
      u8cast (clip255 (if 0 < sStd then
          (sourceLab.data r c k - sMean) * (tStd / sStd) + tMean
        else sourceLab.data r c k)) }

/-- `AdvancedFaceReplacer._match_histograms`: convert both images to LAB, run
the per-channel statistics transfer, convert back to RGB. -/
def matchHistograms (env : Env) (source target : Image) : Image :=
  env.lab2rgb (matchedLab env (env.rgb2lab source) (env.rgb2lab target))

/-- `AdvancedFaceReplacer._replace_with_color_match`: slice the target face
region out of the frame (`frame[top:bottom, left:right]`), resize the source
to the box, histogram-match it to the target region, then seamless-clone at
the box center with `_simple_blend` as the error fallback. -/
def replaceWithColorMatch (env : Env) (sourceFace : Option Image)
    (frame : Image) (faceLocation : Box) (blendStrength : ℚ) : Image :=
  match sourceFace with
  | none => frame
  | some src =>
    let faceHeight := faceLocation.bottom - faceLocation.top
    let faceWidth := faceLocation.right - faceLocation.left
    let targetFace := npSlice frame faceLocation.top faceLocation.bottom
      faceLocation.left faceLocation.right
    let resizedSource := env.resize src faceWidth faceHeight
    let matchedSource := matchHistograms env resizedSource targetFace
    let mask := create_face_mask env matchedSource
    let center : ℤ × ℤ :=
      (faceLocation.left + Int.fdiv faceWidth 2,
       faceLocation.top + Int.fdiv faceHeight 2)
    match env.seamlessClone matchedSource frame mask center with
    | some result =>
      if blendStrength < 1 then
        cvAddWeighted frame (1 - blendStrength) result blendStrength 0
      else result
    | none =>
      simpleBlend frame matchedSource mask faceLocation.top faceLocation.left
        blendStrength

/-- State owned by an `AdvancedFaceReplacer`: the cached source face plus the
most recent non-trivially-assigned detection result (`last_face_locations`,
initialized to `[]`). -/
structure AdvState where
  sourceFace : Option Image
  lastFaceLocations : List Box

/-- The compositing loop body shared by both advanced branches:
left fold of `_replace_with_color_match` over the box list. -/
def advComposite (env : Env) (sourceFace : Option Image) (faces : List Box)
    (frame : Image) (blendStrength : ℚ) : Image :=
  faces.foldl
    (fun result loc =>
      replaceWithColorMatch env sourceFace result loc blendStrength)
    frame

/-- `AdvancedFaceReplacer.replace_faces_in_frame`: no source face ⇒ frame
passes through; otherwise detect, and if the detection is empty while
remembered locations exist, composite with the remembered locations leaving
the state untouched (temporal coasting); otherwise overwrite the remembered
locations with the fresh detections and composite with those. -/
def advancedReplaceFacesInFrame (env : Env) (st : AdvState) (frame : Image)
    (blendStrength : ℚ) : AdvState × Image :=
  match st.sourceFace with
  | none => (st, frame)
  | some _ =>
    let faces := detect_faces env (.rgb frame)
    if faces = [] ∧ st.lastFaceLocations ≠ [] then
      (st, advComposite env st.sourceFace st.lastFaceLocations frame
        blendStrength)
    else
      ({ st with lastFaceLocations := faces },
       advComposite env st.sourceFace faces frame blendStrength)

/-- The loop of `FaceReplacer.process_gif_frames`, one step per frame, also
recording each `progress_callback(i + 1, len(frames))` invocation (as the
pair of arguments passed) in order.  `n` is `len(frames)`; `i` the 0-based
loop index.  The replacement step is passed explicitly because Python
dispatches `self.replace_faces_in_frame` dynamically (basic variant:
stateless; advanced variant: threads `AdvState`). -/
def processLoop {σ : Type} (step : σ → Image → σ × Image) (n : ℕ) :
    σ → List Image → ℕ → σ × List Image × List (ℕ × ℕ)
  | s, [], _ => (s, [], [])
  | s, frame :: rest, i =>
    let p := step s frame
    let r := processLoop step n p.1 rest (i + 1)
    (r.1, p.2 :: r.2.1, (i + 1, n) :: r.2.2)

/-- `FaceReplacer.process_gif_frames`: returns the final replacer state, the
processed frames in order, and the ordered progress-callback invocations. -/
def processGifFrames {σ : Type} (step : σ → Image → σ × Image) (s : σ)
    (frames : List Image) : σ × List Image × List (ℕ × ℕ) :=
  processLoop step frames.length s frames 0

/-- Replacer state after processing a prefix of frames (what the loop carries
into the next iteration). -/
def stateAfter {σ : Type} (step : σ → Image → σ × Image) (s : σ)
    (frames : List Image) : σ :=
  frames.foldl (fun s f => (step s f).1) s

/-- `process_gif_frames` on a basic `FaceReplacer` (the per-frame call is the
stateless `replace_faces_in_frame`). -/
def processGifFramesBasic (env : Env) (sourceFace : Option Image)
    (frames : List Image) (blendStrength : ℚ) :
    Unit × List Image × List (ℕ × ℕ) :=
  processGifFrames
    (fun (_ : Unit) f => ((), replaceFacesInFrame env sourceFace f
      blendStrength))
    () frames

/-- `process_gif_frames` on an `AdvancedFaceReplacer` (the per-frame call
threads the temporal-coasting state). -/
def processGifFramesAdvanced (env : Env) (st : AdvState)
    (frames : List Image) (blendStrength : ℚ) :
    AdvState × List Image × List (ℕ × ℕ) :=
  processGifFrames
    (fun st f => advancedReplaceFacesInFrame env st f blendStrength)
    st frames

/-! Concrete inputs used by the witness theorems. -/

/-- A constant-valued image of the given dimensions. -/
def constImage (h w : ℕ) (v : ℚ) : Image := ⟨h, w, fun _ _ _ => v⟩

/-- An environment whose oracles are all trivial. -/
def trivEnv : Env where
  faceLocations := fun _ => []
  faceLandmarks := fun _ _ => []
  resize := fun _ w h => ⟨h.toNat, w.toNat, fun _ _ _ => 0⟩
  seamlessClone := fun _ _ _ _ => none
  ellipse := fun m _ _ => m
  gaussianBlur := fun m _ _ => m
  rgb2lab := fun img => img
  lab2rgb := fun img => img
  sqrtQ := fun x => x

/-- The box detected in the temporal-coasting witness scenario. -/
def coastBox : Box := ⟨0, 2, 2, 0⟩

/-- Frame 0 of the coasting scenario (detection finds `coastBox`). -/
def coastFrame0 : Image := constImage 3 3 7

/-- Frame 1 of the coasting scenario (detection finds nothing). -/
def coastFrame1 : Image := constImage 4 4 7

/-- Frame 2 of the coasting scenario (detection finds `coastBox` again). -/
def coastFrame2 : Image := constImage 5 5 7

/-- Detection oracle for the coasting scenario: finds `coastBox` exactly on
frames of height 3 or 5. -/
def coastEnv : Env :=
  { trivEnv with
    faceLocations := fun img =>
      if img.height = 3 ∨ img.height = 5 then [coastBox] else [] }

/-- A small concrete source face image. -/
def wSrc : Image := constImage 2 2 5

/-- A concrete 4×4 uint8 frame. -/
def wFrame4 : Image := constImage 4 4 9

/-- A concrete 2×2 patch. -/
def wFace2 : Image := constImage 2 2 2

/-- A box lying inside `wFrame4`. -/
def wBoxMid : Box := ⟨1, 3, 3, 1⟩

/-- A box whose blend center falls within one pixel of the bottom-right edge
of `wFrame4`, triggering the alpha-blend fallback. -/
def edgeBox : Box := ⟨3, 5, 5, 3⟩

/-- A 1×1 box (area 1). -/
def wTieA : Box := ⟨0, 1, 1, 0⟩

/-- A 3×3 box (area 9). -/
def wTieB : Box := ⟨0, 3, 3, 0⟩

/-! ### Helper lemmas -/

theorem u8cast_of_uint8 {x : ℚ} (n : ℕ) (hx : x = (n : ℚ)) (hn : n ≤ 255) :
    u8cast x = x := by
  subst hx
  unfold u8cast
  rw [Int.floor_natCast, Int.toNat_natCast, Nat.mod_eq_of_lt (by omega)]

theorem sat8_of_uint8 {x : ℚ} (n : ℕ) (hx : x = (n : ℚ)) (hn : n ≤ 255) :
    sat8 x = x := by
  subst hx
  unfold sat8
  rw [round_natCast]
  have h : min 255 (max 0 (n : ℤ)) = (n : ℤ) := by omega
  rw [h]
  push_cast
  rfl

theorem u8cast_nonneg (x : ℚ) : 0 ≤ u8cast x := by
  unfold u8cast
  positivity

theorem u8cast_le_255 (x : ℚ) : u8cast x ≤ 255 := by
  unfold u8cast
  have h : ⌊x⌋.toNat % 256 ≤ 255 := by omega
  exact_mod_cast h

theorem npIdx_le (i : ℤ) (n : ℕ) : npIdx i n ≤ n := by
  unfold npIdx
  split <;> omega

theorem simpleBlend_height (frame face : Image) (mask : Mask) (top left : ℤ)
    (s : ℚ) : (simpleBlend frame face mask top left s).height = frame.height := by
  unfold simpleBlend
  split <;> rfl

theorem simpleBlend_width (frame face : Image) (mask : Mask) (top left : ℤ)
    (s : ℚ) : (simpleBlend frame face mask top left s).width = frame.width := by
  unfold simpleBlend
  split <;> rfl

theorem simpleBlend_empty_overlap (frame face : Image) (mask : Mask)
    (top left : ℤ) (s : ℚ)
    (h : blendEndY frame face top ≤ blendStartY top ∨
         blendEndX frame face left ≤ blendStartX left) :
    simpleBlend frame face mask top left s = frame := by
  unfold simpleBlend
  rw [if_pos h]

theorem simpleBlend_outside (frame face : Image) (mask : Mask) (top left : ℤ)
    (s : ℚ) (r c : ℕ) (k : Fin 3)
    (h : ¬(blendStartY top ≤ (r : ℤ) ∧ (r : ℤ) < blendEndY frame face top ∧
           blendStartX left ≤ (c : ℤ) ∧ (c : ℤ) < blendEndX frame face left)) :
    (simpleBlend frame face mask top left s).data r c k = frame.data r c k := by
  unfold simpleBlend
  split
  · rfl
  · simp only
    rw [if_neg h]

theorem chanVar_nonneg (img : Image) (k : Fin 3) : 0 ≤ chanVar img k := by
  unfold chanVar
  apply div_nonneg
  · apply Finset.sum_nonneg
    intro r _
    apply Finset.sum_nonneg
    intro c _
    positivity
  · positivity

/-- Python `max(x :: xs, key=key)` (the fold of `pyMaxBy`) returns an
element of maximal key such that every element strictly before it in the
list has a strictly smaller key — i.e. the first-encountered maximum. -/
theorem pyMaxBy_spec (key : Box → ℤ) :
    ∀ (xs : List Box) (x : Box),
      ∃ l1 l2, x :: xs = l1 ++ pyMaxBy key x xs :: l2 ∧
        (∀ b ∈ x :: xs, key b ≤ key (pyMaxBy key x xs)) ∧
        (∀ b ∈ l1, key b < key (pyMaxBy key x xs)) := by
  intro xs
  induction xs with
  | nil =>
    intro x
    refine ⟨[], [], rfl, ?_, by simp⟩
    intro b hb
    rcases List.mem_cons.mp hb with rfl | hb
    · exact le_refl _
    · exact absurd hb (List.not_mem_nil b)
  | cons a t ih =>
    intro x
    have hstep : pyMaxBy key x (a :: t)
        = pyMaxBy key (if key x < key a then a else x) t := rfl
    by_cases hxa : key x < key a
    · rw [hstep, if_pos hxa]
      obtain ⟨l1, l2, hdec, hbound, hstrict⟩ := ih a
      have ham : key a ≤ key (pyMaxBy key a t) :=
        hbound a (List.mem_cons_self a t)
      refine ⟨x :: l1, l2, ?_, ?_, ?_⟩
      · rw [List.cons_append]
        exact congrArg (List.cons x) hdec
      · intro b hb
        rcases List.mem_cons.mp hb with rfl | hb
        · exact le_of_lt (lt_of_lt_of_le hxa ham)
        · exact hbound b hb
      · intro b hb
        rcases List.mem_cons.mp hb with rfl | hb
        · exact lt_of_lt_of_le hxa ham
        · exact hstrict b hb
    · rw [hstep, if_neg hxa]
      push_neg at hxa
      obtain ⟨l1, l2, hdec, hbound, hstrict⟩ := ih x
      cases l1 with
      | nil =>
        rw [List.nil_append] at hdec
        injection hdec with h1 h2
        refine ⟨[], a :: t, ?_, ?_, by simp⟩
        · rw [List.nil_append, ← h1]
        · intro b hb
          rw [← h1]
          rcases List.mem_cons.mp hb with rfl | hb
          · exact le_refl _
          rcases List.mem_cons.mp hb with rfl | hb
          · exact hxa
          · have hby := hbound b (List.mem_cons_of_mem x hb)
            rw [← h1] at hby
            exact hby
      | cons y l1' =>
        rw [List.cons_append] at hdec
        injection hdec with h1 h2
        subst h1
        have hxm : key x < key (pyMaxBy key x t) :=
          hstrict x (List.mem_cons_self x l1')
        refine ⟨x :: a :: l1', l2, ?_, ?_, ?_⟩
        · rw [List.cons_append, List.cons_append, ← h2]
        · intro b hb
          rcases List.mem_cons.mp hb with rfl | hb
          · exact le_of_lt hxm
          rcases List.mem_cons.mp hb with rfl | hb
          · exact le_of_lt (lt_of_le_of_lt hxa hxm)
          · exact hbound b (List.mem_cons_of_mem x hb)
        · intro b hb
          rcases List.mem_cons.mp hb with rfl | hb
          · exact hxm
          rcases List.mem_cons.mp hb with rfl | hb
          · exact lt_of_le_of_lt hxa hxm
          · exact hstrict b (List.mem_cons_of_mem x hb)

theorem processLoop_length {σ : Type} (step : σ → Image → σ × Image) (n : ℕ) :
    ∀ (fs : List Image) (s : σ) (i : ℕ),
      (processLoop step n s fs i).2.1.length = fs.length := by
  intro fs
  induction fs with
  | nil => intro s i; rfl
  | cons f rest ih =>
    intro s i
    simp [processLoop, ih]

theorem processLoop_cbs {σ : Type} (step : σ → Image → σ × Image) (n : ℕ) :
    ∀ (fs : List Image) (s : σ) (i : ℕ),
      (processLoop step n s fs i).2.2
        = (List.range fs.length).map (fun k => (i + k + 1, n)) := by
  intro fs
  induction fs with
  | nil => intro s i; rfl
  | cons f rest ih =>
    intro s i
    simp only [processLoop, List.length_cons]
    rw [ih, List.range_succ_eq_map, List.map_cons, List.map_map]
    refine congrArg₂ List.cons (by simp) ?_
    apply List.map_congr_left
    intro k _
    simp only [Function.comp_apply, Prod.mk.injEq]
    exact ⟨by omega, trivial⟩

theorem processLoop_get {σ : Type} (step : σ → Image → σ × Image) (n : ℕ) :
    ∀ (fs : List Image) (s : σ) (i j : ℕ),
      (processLoop step n s fs i).2.1.get? j
        = (fs.get? j).map
            (fun f => (step (stateAfter step s (fs.take j)) f).2) := by
  intro fs
  induction fs with
  | nil => intro s i j; simp [processLoop]
  | cons f rest ih =>
    intro s i j
    cases j with
    | zero => simp [processLoop, stateAfter]
    | succ j =>
      simp only [processLoop, List.get?_cons_succ]
      rw [ih]
      simp [stateAfter]

/-! ### Claim theorems -/

/-- Claim C1, counterexample: with no source face set, processing a concrete
frame in either variant returns the frame unchanged (and, in the advanced
variant, leaves the state unchanged) — a silent per-frame no-op rather than a
surfaced precondition failure. -/
theorem no_source_face_silent_noop_cex :
    replaceFacesInFrame trivEnv none (constImage 2 2 5) (9 / 10)
        = constImage 2 2 5 ∧
    advancedReplaceFacesInFrame trivEnv ⟨none, []⟩ (constImage 2 2 5) (9 / 10)
        = (⟨none, []⟩, constImage 2 2 5) :=
  ⟨rfl, rfl⟩

/-- Claim C1, amended: if no source face has been set, `replace_faces_in_frame`
(basic and advanced variants alike) silently returns the frame unchanged; the
missing source face is never surfaced as a per-frame failure (the only
failure surfaced to the caller is `set_source_face` returning `False`). -/
theorem no_source_face_noop (env : Env) (frame : Image) (s : ℚ)
    (st : AdvState) (hst : st.sourceFace = none) :
    replaceFacesInFrame env none frame s = frame ∧
    advancedReplaceFacesInFrame env st frame s = (st, frame) := by
  constructor
  · rfl
  · unfold advancedReplaceFacesInFrame
    rw [hst]

/-- Witness for the amended Claim C1 at a concrete sourceless state. -/
theorem no_source_face_noop_w :
    (⟨none, [coastBox]⟩ : AdvState).sourceFace = none ∧
    (replaceFacesInFrame trivEnv none coastFrame1 (1 / 2) = coastFrame1 ∧
     advancedReplaceFacesInFrame trivEnv ⟨none, [coastBox]⟩ coastFrame1 (1 / 2)
        = (⟨none, [coastBox]⟩, coastFrame1)) :=
  ⟨rfl, no_source_face_noop trivEnv coastFrame1 (1 / 2) ⟨none, [coastBox]⟩ rfl⟩

/-- Claim C2, counterexample: the frame sequence processor accepts the empty
frame list and produces an output (the empty list, with no progress
invocations) instead of rejecting it with a failure. -/
theorem empty_frames_accepted_cex :
    processGifFramesBasic trivEnv none [] (9 / 10) = ((), [], []) := rfl

/-- Claim C2, amended: `process_gif_frames` does not reject an empty frame
sequence; it performs no per-frame work and returns an empty output sequence
(and invokes no progress callback), leaving any empty-input failure to the
downstream GIF assembly layer. -/
theorem empty_frames_empty_output {σ : Type} (step : σ → Image → σ × Image)
    (s : σ) : processGifFrames step s [] = (s, [], []) := rfl

/-- Claim C10: `detect_faces` accepts 2-D grayscale input (converted to RGB
by channel replication) and 4-channel RGBA input (converted by dropping the
alpha channel) as well as plain RGB, and in each case hands the detection
oracle a 3-channel image, so the oracle's 3-channel no-alpha precondition is
met for every accepted input shape. -/
theorem detect_faces_channel_conversion (env : Env) (h w : ℕ)
    (g : ℕ → ℕ → ℚ) (a : ℕ → ℕ → Fin 4 → ℚ) (img : Image) :
    detect_faces env (.gray h w g)
        = env.faceLocations ⟨h, w, fun r c _ => g r c⟩ ∧
    detect_faces env (.rgba h w a)
        = env.faceLocations ⟨h, w, fun r c k => a r c k.castSucc⟩ ∧
    detect_faces env (.rgb img) = env.faceLocations img :=
  ⟨rfl, rfl, rfl⟩

/-- Claim C7: compositing with `blend_strength = 0` is the identity on a
uint8 frame: the alpha fallback's per-pixel weight `(mask/255) * 0` vanishes,
and on the gradient-domain path the final interpolation
`(1 - s)·frame + s·blended` with `s = 0` restores the frame — whichever path
`_replace_single_face` takes, the result is pixel-identical to the input. -/
theorem zero_blend_identity (env : Env) (src frame face : Image)
    (mask : Mask) (loc : Box) (top left : ℤ) (h8 : frame.IsUInt8) :
    simpleBlend frame face mask top left 0 = frame ∧
    replaceSingleFace env (some src) frame loc 0 = frame := by
  have hsb : ∀ (face : Image) (mask : Mask) (top left : ℤ),
      simpleBlend frame face mask top left 0 = frame := by
    intro face mask top left
    unfold simpleBlend
    split
    · rfl
    · ext r c k
      · rfl
      · rfl
      · simp only
        split
        · obtain ⟨n, hn, hle⟩ := h8 r c k
          rw [show face.data ((r : ℤ) - top).toNat ((c : ℤ) - left).toNat k *
                (mask.data ((r : ℤ) - top).toNat ((c : ℤ) - left).toNat / 255 * 0) +
                frame.data r c k *
                (1 - mask.data ((r : ℤ) - top).toNat ((c : ℤ) - left).toNat / 255 * 0)
              = frame.data r c k by ring]
          exact u8cast_of_uint8 n hn hle
        · rfl
  refine ⟨hsb face mask top left, ?_⟩
  dsimp only [replaceSingleFace]
  split
  · exact hsb _ _ _ _
  · cases hclone : env.seamlessClone
        (env.resize src (loc.right - loc.left) (loc.bottom - loc.top)) frame
        (create_face_mask env
          (env.resize src (loc.right - loc.left) (loc.bottom - loc.top)))
        (loc.left + Int.fdiv (loc.right - loc.left) 2,
         loc.top + Int.fdiv (loc.bottom - loc.top) 2) with
    | none => exact hsb _ _ _ _
    | some result =>
      dsimp only
      rw [if_pos (by norm_num : (0 : ℚ) < 1)]
      ext r c k
      · rfl
      · rfl
      · simp only [cvAddWeighted]
        obtain ⟨n, hn, hle⟩ := h8 r c k
        rw [show frame.data r c k * (1 - 0) + result.data r c k * 0 + 0
            = frame.data r c k by ring]
        exact sat8_of_uint8 n hn hle

/-- Witness for Claim C7 at a concrete uint8 frame. -/
theorem zero_blend_identity_w :
    wFrame4.IsUInt8 ∧
    (simpleBlend wFrame4 wFace2 (zerosMask 2 2) 1 1 0 = wFrame4 ∧
     replaceSingleFace trivEnv (some wSrc) wFrame4 wBoxMid 0 = wFrame4) := by
  have h8 : wFrame4.IsUInt8 := fun _ _ _ => ⟨9, rfl, by norm_num⟩
  exact ⟨h8, zero_blend_identity trivEnv wSrc wFrame4 wFace2 (zerosMask 2 2)
    wBoxMid 1 1 h8⟩

/-- Claim C6: when a box's blend center, offset by half the box's
width/height, falls outside the frame's bounds, `_replace_single_face`
routes through the alpha-blend fallback (never the gradient-domain clone),
is total (no exception path exists), and returns a frame of exactly the
input frame's dimensions; source-patch pixels outside the overlap rectangle
are dropped (pixels outside it are unchanged), and an empty overlap returns
the frame unmodified. -/
theorem center_out_of_bounds_fallback (env : Env) (src frame : Image)
    (loc : Box) (s : ℚ) (hc : centerOutOfBounds frame loc) :
    replaceSingleFace env (some src) frame loc s
      = simpleBlend frame (fittedSource env src loc) (fittedMask env src loc)
          loc.top loc.left s ∧
    (replaceSingleFace env (some src) frame loc s).height = frame.height ∧
    (replaceSingleFace env (some src) frame loc s).width = frame.width ∧
    (blendEndY frame (fittedSource env src loc) loc.top ≤ blendStartY loc.top ∨
     blendEndX frame (fittedSource env src loc) loc.left ≤ blendStartX loc.left →
       replaceSingleFace env (some src) frame loc s = frame) ∧
    (∀ r c : ℕ, ∀ k : Fin 3,
       ¬(blendStartY loc.top ≤ (r : ℤ) ∧
         (r : ℤ) < blendEndY frame (fittedSource env src loc) loc.top ∧
         blendStartX loc.left ≤ (c : ℤ) ∧
         (c : ℤ) < blendEndX frame (fittedSource env src loc) loc.left) →
       (replaceSingleFace env (some src) frame loc s).data r c k
         = frame.data r c k) := by
  have hred : replaceSingleFace env (some src) frame loc s
      = simpleBlend frame (fittedSource env src loc) (fittedMask env src loc)
          loc.top loc.left s := by
    dsimp only [replaceSingleFace]
    rw [if_pos hc]
    rfl
  refine ⟨hred, ?_, ?_, ?_, ?_⟩
  · rw [hred]; exact simpleBlend_height _ _ _ _ _ _
  · rw [hred]; exact simpleBlend_width _ _ _ _ _ _
  · intro hov; rw [hred]
    exact simpleBlend_empty_overlap _ _ _ _ _ _ hov
  · intro r c k hout; rw [hred]
    exact simpleBlend_outside _ _ _ _ _ _ _ _ _ hout

/-- Witness for Claim C6: `edgeBox`'s center is within one pixel of
`wFrame4`'s edge, so replacement routes through the fallback and preserves
the frame's dimensions. -/
theorem center_out_of_bounds_fallback_w :
    centerOutOfBounds wFrame4 edgeBox ∧
    (replaceSingleFace trivEnv (some wSrc) wFrame4 edgeBox (1 / 2)
        = simpleBlend wFrame4 (fittedSource trivEnv wSrc edgeBox)
            (fittedMask trivEnv wSrc edgeBox) edgeBox.top edgeBox.left (1 / 2) ∧
     (replaceSingleFace trivEnv (some wSrc) wFrame4 edgeBox (1 / 2)).height
        = wFrame4.height ∧
     (replaceSingleFace trivEnv (some wSrc) wFrame4 edgeBox (1 / 2)).width
        = wFrame4.width) := by
  have h := center_out_of_bounds_fallback trivEnv wSrc wFrame4 edgeBox (1 / 2)
    (by decide)
  exact ⟨by decide, h.1, h.2.1, h.2.2.1⟩

/-- Claim C3: every pixel of the current frame reached through a bounding
box is reached at clipped, in-bounds coordinates.  First conjunct: the
advanced variant's target-region extraction `frame[top:bottom, left:right]`
(numpy basic slicing, also the slicing used when a remembered box is reused
verbatim during temporal coasting) only reads frame indices strictly inside
the frame's own dimensions.  Second conjunct: `_simple_blend`'s explicitly
clipped overlap rectangle — the only indices at which it reads or writes
frame pixels and reads patch/mask pixels — lies inside both the frame's and
the patch's dimensions. -/
theorem box_access_within_bounds (frame face : Image) (b : Box)
    (top left : ℤ) :
    (∀ r c : ℕ,
       r < (npSlice frame b.top b.bottom b.left b.right).height →
       c < (npSlice frame b.top b.bottom b.left b.right).width →
       npIdx b.top frame.height + r < frame.height ∧
       npIdx b.left frame.width + c < frame.width) ∧
    (∀ r c : ℕ,
       blendStartY top ≤ (r : ℤ) → (r : ℤ) < blendEndY frame face top →
       blendStartX left ≤ (c : ℤ) → (c : ℤ) < blendEndX frame face left →
       r < frame.height ∧ c < frame.width ∧
       ((r : ℤ) - top).toNat < face.height ∧
       ((c : ℤ) - left).toNat < face.width) := by
  constructor
  · intro r c hr hc
    have h1 := npIdx_le b.bottom frame.height
    have h2 := npIdx_le b.right frame.width
    simp only [npSlice] at hr hc
    omega
  · intro r c h1 h2 h3 h4
    simp only [blendStartY, blendEndY, blendStartX, blendEndX] at h1 h2 h3 h4
    omega

/-- Witness for Claim C3 at a concrete frame, patch and box. -/
theorem box_access_within_bounds_w :
    ((0 : ℕ) < (npSlice wFrame4 wBoxMid.top wBoxMid.bottom wBoxMid.left
        wBoxMid.right).height ∧
     npIdx wBoxMid.top wFrame4.height + 0 < wFrame4.height) ∧
    (blendStartY 2 ≤ (2 : ℤ) ∧ ((2 : ℕ) : ℤ) < blendEndY wFrame4 wFace2 2 ∧
     (2 : ℕ) < wFrame4.height ∧ (((2 : ℕ) : ℤ) - 2).toNat < wFace2.height) := by
  have h := box_access_within_bounds wFrame4 wFace2 wBoxMid 2 2
  refine ⟨⟨by decide, (h.1 0 0 (by decide) (by decide)).1⟩,
          ⟨by decide, by decide, ?_, ?_⟩⟩
  · exact (h.2 2 2 (by decide) (by decide) (by decide) (by decide)).1
  · exact (h.2 2 2 (by decide) (by decide) (by decide) (by decide)).2.2.1

/-- Claim C8: in the per-channel loop of `_match_histograms`, a source
channel whose standard deviation is zero (equivalently, zero variance — the
square root of a nonnegative variance is positive exactly when the variance
is) is left completely unchanged, so the division by the standard deviation
is never performed for it; a channel with positive deviation is rescaled as
`(value - source_mean) * (target_std / source_std) + target_mean`; and every
resulting sample is clipped into `[0, 255]` before conversion back to RGB. -/
theorem histogram_match_degenerate_safe (env : Env) (srcLab tgtLab : Image)
    (hsqrt : ∀ x : ℚ, 0 ≤ x → (0 < env.sqrtQ x ↔ 0 < x))
    (h8 : srcLab.IsUInt8) :
    (∀ k : Fin 3, chanVar srcLab k = 0 → ∀ r c : ℕ,
       (matchedLab env srcLab tgtLab).data r c k = srcLab.data r c k) ∧
    (∀ k : Fin 3, 0 < chanVar srcLab k → ∀ r c : ℕ,
       (matchedLab env srcLab tgtLab).data r c k
         = u8cast (clip255 ((srcLab.data r c k - chanMean srcLab k)
             * (chanStd env tgtLab k / chanStd env srcLab k)
             + chanMean tgtLab k))) ∧
    (∀ r c : ℕ, ∀ k : Fin 3,
       0 ≤ (matchedLab env srcLab tgtLab).data r c k ∧
       (matchedLab env srcLab tgtLab).data r c k ≤ 255) := by
  refine ⟨?_, ?_, ?_⟩
  · intro k hvar r c
    have hstd : ¬ 0 < chanStd env srcLab k := by
      intro h
      unfold chanStd at h
      rw [hvar] at h
      exact absurd ((hsqrt 0 le_rfl).1 h) (lt_irrefl 0)
    dsimp only [matchedLab]
    rw [if_neg hstd]
    obtain ⟨n, hn, hle⟩ := h8 r c k
    have hclip : clip255 (srcLab.data r c k) = srcLab.data r c k := by
      unfold clip255
      rw [hn]
      have h0 : (0 : ℚ) ≤ (n : ℚ) := by positivity
      have h255 : (n : ℚ) ≤ 255 := by exact_mod_cast hle
      rw [max_eq_right h0, min_eq_right h255]
    rw [hclip]
    exact u8cast_of_uint8 n hn hle
  · intro k hvar r c
    have hstd : 0 < chanStd env srcLab k :=
      (hsqrt _ (chanVar_nonneg _ _)).2 hvar
    dsimp only [matchedLab]
    rw [if_pos hstd]
  · intro r c k
    dsimp only [matchedLab]
    exact ⟨u8cast_nonneg _, u8cast_le_255 _⟩

/-- Witness for Claim C8: a flat 1×1 source channel has zero variance and
survives harmonization unchanged (`trivEnv.sqrtQ = id` satisfies the square
root's positivity characterization). -/
theorem histogram_match_degenerate_safe_w :
    chanVar (constImage 1 1 7) 0 = 0 ∧
    (matchedLab trivEnv (constImage 1 1 7) (constImage 1 1 3)).data 0 0 0
      = (constImage 1 1 7).data 0 0 0 := by
  have hv : chanVar (constImage 1 1 7) 0 = 0 := by
    simp [chanVar, chanMean, chanSum, constImage]
  have h := histogram_match_degenerate_safe trivEnv (constImage 1 1 7)
    (constImage 1 1 3) (fun x _ => Iff.rfl)
    (fun _ _ _ => ⟨7, by simp [constImage], by norm_num⟩)
  exact ⟨hv, h.1 0 hv 0 0⟩

/-- Claim C9: on a non-empty detection result, `set_source_face`'s
`max(faces, key=lambda f: (f[2]-f[0])*(f[1]-f[3]))` selects a box of maximal
area `(right - left) × (bottom - top)`, and every box encountered before the
selected one has strictly smaller area — so ties are broken in favor of the
first-encountered box of the detector's returned order. -/
theorem largest_face_selection (faces : List Box) (h : faces ≠ []) :
    ∃ m l1 l2, largestFace faces = some m ∧ faces = l1 ++ m :: l2 ∧
      (∀ b ∈ faces, b.pyArea ≤ m.pyArea) ∧
      (∀ b ∈ l1, b.pyArea < m.pyArea) ∧
      m.pyArea = (m.right - m.left) * (m.bottom - m.top) := by
  cases faces with
  | nil => exact absurd rfl h
  | cons x xs =>
    obtain ⟨l1, l2, hdec, hbound, hstrict⟩ := pyMaxBy_spec Box.pyArea xs x
    refine ⟨pyMaxBy Box.pyArea x xs, l1, l2, rfl, hdec, hbound, hstrict, ?_⟩
    unfold Box.pyArea
    ring

/-- Witness for Claim C9 on a concrete two-element detection result. -/
theorem largest_face_selection_w :
    ([wTieA, wTieB] : List Box) ≠ [] ∧
    (∃ m l1 l2, largestFace [wTieA, wTieB] = some m ∧
       [wTieA, wTieB] = l1 ++ m :: l2 ∧
       (∀ b ∈ [wTieA, wTieB], b.pyArea ≤ m.pyArea) ∧
       (∀ b ∈ l1, b.pyArea < m.pyArea) ∧
       m.pyArea = (m.right - m.left) * (m.bottom - m.top)) :=
  ⟨by simp, largest_face_selection [wTieA, wTieB] (by simp)⟩

/-- Claim C5: for a non-empty list of `n` frames, `process_gif_frames`
returns exactly `n` frames; the `j`-th output is the per-frame replacement
of the `j`-th input under the state accumulated over inputs `0..j-1` only
(so no output draws on later inputs); and the progress callback is invoked
exactly `n` times, after frame `j` with arguments `(j + 1, n)` — strictly
increasing counts reaching `(n, n)` exactly once, at the end. -/
theorem process_frames_order_progress {σ : Type}
    (step : σ → Image → σ × Image) (s : σ) (frames : List Image)
    (h : frames ≠ []) :
    (processGifFrames step s frames).2.1.length = frames.length ∧
    (∀ j : ℕ, (processGifFrames step s frames).2.1.get? j
        = (frames.get? j).map
            (fun f => (step (stateAfter step s (frames.take j)) f).2)) ∧
    (processGifFrames step s frames).2.2
        = (List.range frames.length).map
            (fun k => (k + 1, frames.length)) := by
  refine ⟨processLoop_length step frames.length frames s 0,
    fun j => processLoop_get step frames.length frames s 0 j, ?_⟩
  rw [show processGifFrames step s frames
      = processLoop step frames.length s frames 0 from rfl,
    processLoop_cbs]
  apply List.map_congr_left
  intro k _
  simp

/-- Witness for Claim C5 on a concrete one-frame sequence processed by the
basic replacer step. -/
theorem process_frames_order_progress_w :
    ([coastFrame0] : List Image) ≠ [] ∧
    ((processGifFrames
        (fun (_ : Unit) f => ((), replaceFacesInFrame trivEnv none f (1 / 2)))
        () [coastFrame0]).2.1.length = [coastFrame0].length ∧
     (processGifFrames
        (fun (_ : Unit) f => ((), replaceFacesInFrame trivEnv none f (1 / 2)))
        () [coastFrame0]).2.2 = [(1, 1)]) := by
  have h := process_frames_order_progress
    (fun (_ : Unit) f => ((), replaceFacesInFrame trivEnv none f (1 / 2)))
    () [coastFrame0] (by simp)
  refine ⟨by simp, h.1, ?_⟩
  rw [h.2.2]
  rfl

/-- Claim C4: in the advanced (stateful) replacer, for a sequence whose
detections are non-empty on frame 0, empty on frame 1 and non-empty on
frame 2 (fresh job state, source face set): frame 0 stores its detections;
frame 1 is composited using frame 0's remembered boxes against frame 1's own
pixels while leaving the remembered state untouched; frame 2 is composited
with its own fresh detections, which overwrite the remembered state; a frame
with empty detections and no prior non-empty result passes through
unmodified with unchanged state; and `process_gif_frames` over the three
frames yields exactly these three composites in order. -/
theorem advanced_temporal_coasting (env : Env) (src : Image)
    (f0 f1 f2 : Image) (bs0 bs2 : List Box) (s : ℚ)
    (h0 : detect_faces env (.rgb f0) = bs0) (hb0 : bs0 ≠ [])
    (h1 : detect_faces env (.rgb f1) = [])
    (h2 : detect_faces env (.rgb f2) = bs2) (hb2 : bs2 ≠ []) :
    advancedReplaceFacesInFrame env ⟨some src, []⟩ f0 s
      = (⟨some src, bs0⟩, advComposite env (some src) bs0 f0 s) ∧
    advancedReplaceFacesInFrame env ⟨some src, bs0⟩ f1 s
      = (⟨some src, bs0⟩, advComposite env (some src) bs0 f1 s) ∧
    advancedReplaceFacesInFrame env ⟨some src, bs0⟩ f2 s
      = (⟨some src, bs2⟩, advComposite env (some src) bs2 f2 s) ∧
    (∀ f, detect_faces env (.rgb f) = [] →
       advancedReplaceFacesInFrame env ⟨some src, []⟩ f s
         = (⟨some src, []⟩, f)) ∧
    (processGifFramesAdvanced env ⟨some src, []⟩ [f0, f1, f2] s).2.1
      = [advComposite env (some src) bs0 f0 s,
         advComposite env (some src) bs0 f1 s,
         advComposite env (some src) bs2 f2 s] := by
  have e0 : advancedReplaceFacesInFrame env ⟨some src, []⟩ f0 s
      = (⟨some src, bs0⟩, advComposite env (some src) bs0 f0 s) := by
    dsimp only [advancedReplaceFacesInFrame]
    rw [h0, if_neg (by simp)]
  have e1 : advancedReplaceFacesInFrame env ⟨some src, bs0⟩ f1 s
      = (⟨some src, bs0⟩, advComposite env (some src) bs0 f1 s) := by
    dsimp only [advancedReplaceFacesInFrame]
    rw [h1, if_pos ⟨rfl, hb0⟩]
  have e2 : advancedReplaceFacesInFrame env ⟨some src, bs0⟩ f2 s
      = (⟨some src, bs2⟩, advComposite env (some src) bs2 f2 s) := by
    dsimp only [advancedReplaceFacesInFrame]
    rw [h2, if_neg (by simp [hb2])]
  refine ⟨e0, e1, e2, ?_, ?_⟩
  · intro f hf
    dsimp only [advancedReplaceFacesInFrame]
    rw [hf, if_neg (by simp)]
    rfl
  · simp only [processGifFramesAdvanced, processGifFrames, processLoop,
      e0, e1, e2]

/-- Witness for Claim C4 on the concrete three-frame coasting scenario
(`coastEnv` detects `coastBox` on frames 0 and 2 and nothing on frame 1). -/
theorem advanced_temporal_coasting_w :
    ([coastBox] : List Box) ≠ [] ∧
    (advancedReplaceFacesInFrame coastEnv ⟨some wSrc, [coastBox]⟩
        coastFrame1 (1 / 2)
      = (⟨some wSrc, [coastBox]⟩,
         advComposite coastEnv (some wSrc) [coastBox] coastFrame1 (1 / 2)) ∧
     (processGifFramesAdvanced coastEnv ⟨some wSrc, []⟩
        [coastFrame0, coastFrame1, coastFrame2] (1 / 2)).2.1
      = [advComposite coastEnv (some wSrc) [coastBox] coastFrame0 (1 / 2),
         advComposite coastEnv (some wSrc) [coastBox] coastFrame1 (1 / 2),
         advComposite coastEnv (some wSrc) [coastBox] coastFrame2 (1 / 2)]) := by
  have h := advanced_temporal_coasting coastEnv wSrc coastFrame0 coastFrame1
    coastFrame2 [coastBox] [coastBox] (1 / 2) rfl (by simp) rfl rfl (by simp)
  exact ⟨by simp, h.2.1, h.2.2.2.2⟩

end FaceGifReplacer
